import Mathlib

/-!
Shallow embedding of the yongal2rag retrieval pipeline (src/rag_engine.py).

External collaborators (the Qdrant vector index, the HuggingFace embedder,
the Bedrock language model, hashlib.md5 and the langchain text splitter)
are modelled as explicit parameters or, where the repository fixes their
behaviour only through the interface description of the spec, as
definitions whose doc comments start with `Modelled from the spec`.
Similarity scores (Python floats) are modelled as exact rationals, text as
`String` (or `List Char` for the chunker), fallible external calls as
`Except String`, and the vector index state as a list of points.
Logging calls of the source are side-effect free and are not modelled.
-/

namespace RAGEngine

/-! ## Chunker -/

/-- Modelled from the spec: the chunker used by `add_document`
(`RecursiveCharacterTextSplitter(chunk_size=1000, chunk_overlap=200)`) is
langchain library code that is not part of this repository; §4.1 of the
spec fixes its contract: an ordered sequence of substrings, each of length
at most `size`, each chunk after the first overlapping its predecessor by
`size - step` characters, trailing content never dropped.  `step` is the
stride between consecutive chunk starts (`chunk_size - chunk_overlap`);
the first argument is recursion fuel (any value at least the text length
gives the chunking). -/
def chunkTextFuel (size step : Nat) : Nat → List Char → List (List Char)
  | 0, t => [t]
  | fuel + 1, t =>
    if size < t.length ∧ step ≠ 0 then
      t.take size :: chunkTextFuel size step fuel (t.drop step)
    else
      [t]

/-- Modelled from the spec: chunking a text with maximum chunk length
`size` and stride `step` between chunk starts (overlap `size - step`). -/
def chunkText (size step : Nat) (t : List Char) : List (List Char) :=
  chunkTextFuel size step t.length t

/-- Embeds the `text_splitter.split_text(content)` call of
`RAGEngine.add_document` with the source's configuration
`chunk_size=1000, chunk_overlap=200` (stride `1000 - 200 = 800`). -/
def split_text (content : String) : List String :=
  (chunkText 1000 800 content.toList).map String.mk

/-- Concatenation of a chunk list with the declared overlap removed: the
first chunk is kept whole and every later chunk loses its first `ov`
characters (its overlap with the predecessor). -/
def reconOv (ov : Nat) : List (List Char) → List Char
  | [] => []
  | c :: cs => c ++ (cs.map (List.drop ov)).flatten

/-! ## Data model -/

/-- Payload stored with every index point (`add_document`). -/
structure Payload where
  doc_id : String
  file_name : String
  chunk_index : Nat
  text : String
  uploaded_at : String
deriving DecidableEq

/-- A point of the vector index (`PointStruct`): id, vector, payload. -/
structure Point where
  id : String
  vector : List ℚ
  payload : Payload
deriving DecidableEq

/-- A nearest-neighbour search result as consumed by `RAGEngine.query`:
only the payload and the similarity score of a result are read. -/
structure SearchResult where
  payload : Payload
  score : ℚ
deriving DecidableEq

/-- An entry of the `hit_info` list built by `RAGEngine.query`. -/
structure Hit where
  rank : Nat
  file_name : String
  score : ℚ
  chunk_index : Nat
deriving DecidableEq

/-- The result dictionary of `RAGEngine.query`.  Keys that a given return
statement of the source omits are modelled as `none`. -/
structure QueryResult where
  status : String
  answer : String
  message : Option String
  hit_info : List Hit
  context_used : Option Nat
  mode : Option String
deriving DecidableEq

/-- The result dictionary of `RAGEngine.add_document`. -/
structure AddResult where
  status : String
  doc_id : Option String
  chunks_count : Option Nat
  message : Option String
deriving DecidableEq

/-- The result dictionary of `RAGEngine.delete_document`. -/
structure DeleteResult where
  status : String
  deleted_points : Option Nat
  message : Option String
deriving DecidableEq

/-- A document summary produced by `RAGEngine.get_all_documents`. -/
structure DocSummary where
  doc_id : String
  file_name : String
  chunks_count : Nat
  uploaded_at : String
deriving DecidableEq

/-! ## Vector index operations (capability interface of §6) -/

/-- The scroll filter of `delete_document`: payload key `doc_id` must
match the given value. -/
def matchDoc (d : String) (p : Point) : Bool :=
  p.payload.doc_id == d

/-- Modelled from the spec: `scroll(collection, filter?, limit)` of the
Vector Index interface (§6) returns the points satisfying the filter,
truncated at `limit`. -/
def scroll (store : List Point) (f : Point → Bool) (limit : Nat) : List Point :=
  (store.filter f).take limit

/-- Modelled from the spec: `delete(collection, ids)` of the Vector Index
interface (§6) removes every point whose id occurs in `ids`. -/
def deleteByIds (store : List Point) (ids : List String) : List Point :=
  store.filter (fun p => !(ids.contains p.id))

/-- Modelled from the spec: `upsert(collection, points)` of the Vector
Index interface (§6) replaces points with a matching id and inserts the
rest. -/
def upsert (store pts : List Point) : List Point :=
  store.filter (fun p => pts.all (fun q => q.id != p.id)) ++ pts

/-! ## Ingestion (`RAGEngine.add_document`) -/

/-- `doc_id = hashlib.md5(file_name.encode()).hexdigest()`.  The md5 hex
digest is an external deterministic function of the input string; it is
passed in as the parameter `hash`. -/
def doc_id_of (hash : String → String) (file_name : String) : String :=
  hash file_name

/-- `point_id = hashlib.md5(f"{doc_id}_{idx}".encode()).hexdigest()`. -/
def point_id_of (hash : String → String) (doc_id : String) (idx : Nat) : String :=
  hash (doc_id ++ "_" ++ toString idx)

/-- The per-chunk loop of `add_document`, started at index `k`: embed each
chunk and build its `PointStruct`; the first embedding failure aborts the
whole loop (the Python exception propagates to the handler). -/
def buildPoints (hash : String → String) (embed : String → Except String (List ℚ))
    (doc_id file_name now : String) : Nat → List String → Except String (List Point)
  | _, [] => Except.ok []
  | k, c :: cs =>
    match embed c with
    | Except.error e => Except.error e
    | Except.ok v =>
      match buildPoints hash embed doc_id file_name now (k + 1) cs with
      | Except.error e => Except.error e
      | Except.ok rest =>
        Except.ok
          ({ id := point_id_of hash doc_id k, vector := v,
             payload :=
               { doc_id := doc_id, file_name := file_name, chunk_index := k,
                 text := c, uploaded_at := now } } :: rest)

/-- `RAGEngine.add_document`: derive `doc_id`, chunk the content, embed
every chunk building one point each, then upsert all points in one batch.
`now` is the `datetime.now().isoformat()` timestamp, `store` the index
state; the new index state is returned with the result dictionary. -/
def add_document (hash : String → String) (embed : String → Except String (List ℚ))
    (now : String) (store : List Point) (file_name content : String) :
    AddResult × List Point :=
  let doc_id := doc_id_of hash file_name
  let chunks := split_text content
  match buildPoints hash embed doc_id file_name now 0 chunks with
  | Except.error e =>
    ({ status := "error", doc_id := none, chunks_count := none, message := some e }, store)
  | Except.ok pts =>
    ({ status := "success", doc_id := some doc_id, chunks_count := some chunks.length,
       message := none }, upsert store pts)

/-! ## Deletion (`RAGEngine.delete_document`) -/

/-- `RAGEngine.delete_document`: scroll for the points whose payload
`doc_id` matches (scroll limit 10000, as in the source), delete them by id
in one batch — the delete call is only issued when the id list is
non-empty (`if point_ids:`).  Returns the result dictionary, the new index
state, and whether a delete call was issued. -/
def delete_document (store : List Point) (d : String) :
    DeleteResult × List Point × Bool :=
  let point_ids := (scroll store (matchDoc d) 10000).map Point.id
  if point_ids.isEmpty then
    ({ status := "success", deleted_points := some point_ids.length, message := none },
     store, false)
  else
    ({ status := "success", deleted_points := some point_ids.length, message := none },
     deleteByIds store point_ids, true)

/-! ## Listing (`RAGEngine.get_all_documents`) -/

/-- One `docs_dict` update step of `get_all_documents`: bump the chunk
count of the summary with the given `doc_id`. -/
def bumpCount (d : String) : List DocSummary → List DocSummary
  | [] => []
  | s :: ss =>
    if s.doc_id = d then { s with chunks_count := s.chunks_count + 1 } :: ss
    else s :: bumpCount d ss

/-- The loop body of `get_all_documents`: if the point's `doc_id` is new,
append a fresh summary (count 0) preserving insertion order, then
increment the count of that `doc_id`. -/
def insertPoint (acc : List DocSummary) (p : Point) : List DocSummary :=
  let acc2 :=
    if acc.any (fun s => s.doc_id == p.payload.doc_id) then acc
    else
      acc ++ [{ doc_id := p.payload.doc_id, file_name := p.payload.file_name,
                chunks_count := 0, uploaded_at := p.payload.uploaded_at }]
  bumpCount p.payload.doc_id acc2

/-- The grouping loop of `get_all_documents` over the scrolled points:
`docs_dict` is modelled as an insertion-ordered list of summaries. -/
def groupDocs (pts : List Point) : List DocSummary :=
  pts.foldl insertPoint []

/-- `RAGEngine.get_all_documents`: `scan` is the outcome of the
`qdrant_client.scroll(collection_name, limit=10000)` call (for an index in
state `store` a successful call yields
`scroll store (fun _ => true) 10000`).  A failing scan is caught and
yields the empty list. -/
def get_all_documents (scan : Except String (List Point)) : List DocSummary :=
  match scan with
  | Except.error _ => []
  | Except.ok pts => groupDocs pts

/-! ## Query (`RAGEngine.query`) -/

/-- The relevance threshold of `RAGEngine.query` (the literal `0.2` of the
source, exact as a rational). -/
def threshold : ℚ := mkRat 1 5

/-- `round(score, 4)` of the source, on exact rationals: the multiple of
`1/10000` nearest to `q` (halves up), computed on numerator and
denominator so that it evaluates by kernel reduction. -/
def round4 (q : ℚ) : ℚ :=
  mkRat ((2 * q.num * 10000 + q.den).ediv (2 * q.den)) 10000

/-- The external calls made by `RAGEngine.query`: the collection info
lookup (`points_count`), the embedder, the nearest-neighbour search
(`query_points`), and the language model (`llm.invoke`, one call per
prompt). -/
structure QueryEnv where
  get_collection : Except String Nat
  embed : String → Except String (List ℚ)
  query_points : List ℚ → Nat → Except String (List SearchResult)
  llm : String → Except String String

/-- Python's `enumerate` over search results, starting at index `k`. -/
def enumResults : Nat → List SearchResult → List (Nat × SearchResult)
  | _, [] => []
  | k, r :: rs => (k, r) :: enumResults (k + 1) rs

/-- The filtering loop of the RAG branch: the enumerated results whose
score is at least the threshold, in rank order. -/
def ragSelected (results : List SearchResult) : List (Nat × SearchResult) :=
  (enumResults 0 results).filter (fun p => decide (threshold ≤ p.2.score))

/-- One `hit_info` entry: `rank = idx + 1`, file name, the score rounded
to four decimals, and the chunk index. -/
def mkHit (idx : Nat) (r : SearchResult) : Hit :=
  { rank := idx + 1, file_name := r.payload.file_name, score := round4 r.score,
    chunk_index := r.payload.chunk_index }

/-- The RAG prompt f-string of `RAGEngine.query`. -/
def ragPrompt (context question : String) : String :=
  "다음 문서를 참고하여 질문에 답변하세요.\n\n참고 문서:\n" ++ context ++
    "\n\n질문: " ++ question ++ "\n\n답변:"

/-- The general-mode return dictionary of `RAGEngine.query`. -/
def generalResult (ans : String) : QueryResult :=
  { status := "success", answer := ans, message := none, hit_info := [],
    context_used := some 0, mode := some "general" }

/-- The fallback-mode return dictionary of `RAGEngine.query`. -/
def fallbackResult (ans : String) : QueryResult :=
  { status := "success", answer := ans, message := none, hit_info := [],
    context_used := some 0, mode := some "fallback" }

/-- The error return dictionary of `RAGEngine.query` (`message` is the
original exception, the answer a generic apology). -/
def errorResult (e : String) : QueryResult :=
  { status := "error", answer := "죄송합니다. 오류가 발생했습니다.", message := some e,
    hit_info := [], context_used := none, mode := none }

/-- The branch of `RAGEngine.query` reached when search results exist and
the best score clears the threshold: filter the results by the threshold,
build `context_chunks` and `hit_info`, prompt the model with the RAG
prompt (or the bare question if, defensively, nothing was selected). -/
def ragBranch (env : QueryEnv) (question : String) (results : List SearchResult) :
    Except String QueryResult :=
  let sel := ragSelected results
  let context_chunks := sel.map (fun p => p.2.payload.text)
  let prompt :=
    if context_chunks.isEmpty then question
    else ragPrompt (String.intercalate "\n\n" context_chunks) question
  match env.llm prompt with
  | Except.error e => Except.error e
  | Except.ok ans =>
    Except.ok
      { status := "success", answer := ans, message := none,
        hit_info := sel.map (fun p => mkHit p.1 p.2),
        context_used := some context_chunks.length,
        mode := some (if context_chunks.isEmpty then "general" else "rag") }

/-- The body of the outer `try` of `RAGEngine.query`; an
`Except.error` is an exception propagating to the outer handler.  The
collection-info lookup has its own inner handler: its failure is absorbed
by treating `points_count` as `0`. -/
def queryBody (env : QueryEnv) (question : String) (top_k : Nat) :
    Except String QueryResult :=
  let points_count : Nat :=
    match env.get_collection with
    | Except.ok n => n
    | Except.error _ => 0
  if points_count = 0 then
    match env.llm question with
    | Except.error e => Except.error e
    | Except.ok ans => Except.ok (generalResult ans)
  else
    match env.embed question with
    | Except.error e => Except.error e
    | Except.ok qe =>
      match env.query_points qe top_k with
      | Except.error e => Except.error e
      | Except.ok results =>
        match results with
        | [] =>
          match env.llm question with
          | Except.error e => Except.error e
          | Except.ok ans => Except.ok (generalResult ans)
        | r0 :: _ =>
          if r0.score < threshold then
            match env.llm question with
            | Except.error e => Except.error e
            | Except.ok ans => Except.ok (generalResult ans)
          else
            ragBranch env question results

/-- `RAGEngine.query`: run the pipeline body; on an exception, make one
fallback call with the bare question, and if that also fails return the
error dictionary carrying the original exception message. -/
def query (env : QueryEnv) (question : String) (top_k : Nat) : QueryResult :=
  match queryBody env question top_k with
  | Except.ok r => r
  | Except.error e =>
    match env.llm question with
    | Except.ok ans => fallbackResult ans
    | Except.error _ => errorResult e

/-! ## Chunker lemmas -/

theorem chunkTextFuel_ne_nil (size step fuel : Nat) (t : List Char) :
    chunkTextFuel size step fuel t ≠ [] := by
  cases fuel with
  | zero => simp [chunkTextFuel]
  | succ n =>
    by_cases h : size < t.length ∧ step ≠ 0 <;> simp [chunkTextFuel, h]

theorem chunkTextFuel_shape (size step fuel : Nat) (t : List Char) :
    ∃ c cs, chunkTextFuel size step fuel t = c :: cs ∧ (c = t ∨ c = t.take size) := by
  cases fuel with
  | zero => exact ⟨t, [], rfl, Or.inl rfl⟩
  | succ n =>
    by_cases h : size < t.length ∧ step ≠ 0
    · exact ⟨t.take size, chunkTextFuel size step n (t.drop step),
        by simp [chunkTextFuel, h], Or.inr rfl⟩
    · exact ⟨t, [], by simp [chunkTextFuel, h], Or.inl rfl⟩

theorem reconOv_chunkTextFuel (size step : Nat) (h1 : step ≠ 0) (h2 : step ≤ size) :
    ∀ (fuel : Nat) (t : List Char), t.length ≤ fuel →
      reconOv (size - step) (chunkTextFuel size step fuel t) = t := by
  intro fuel
  induction fuel with
  | zero => intro t _; simp [chunkTextFuel, reconOv]
  | succ n ih =>
    intro t ht
    by_cases h : size < t.length ∧ step ≠ 0
    · have hstep : 0 < step := Nat.pos_of_ne_zero h1
      obtain ⟨c, cs, hcc, hc⟩ := chunkTextFuel_shape size step n (t.drop step)
      have hdlen : (t.drop step).length = t.length - step := List.length_drop step t
      have hui : size - step < (t.drop step).length := by
        rw [hdlen]; omega
      have hclen : size - step ≤ c.length := by
        rcases hc with rfl | rfl
        · omega
        · rw [List.length_take]; omega
      have hIH : c ++ (cs.map (List.drop (size - step))).flatten = t.drop step := by
        have := ih (t.drop step) (by rw [hdlen]; omega)
        rw [hcc] at this
        simpa [reconOv] using this
      have hkey :
          List.drop (size - step) c ++ (cs.map (List.drop (size - step))).flatten =
            List.drop (size - step) (t.drop step) := by
        rw [← hIH, List.drop_append_of_le_length hclen]
      show reconOv (size - step) (chunkTextFuel size step (n + 1) t) = t
      simp only [chunkTextFuel, if_pos h, hcc, reconOv, List.map_cons,
        List.flatten_cons]
      rw [hkey, List.drop_drop]
      have hsum : step + (size - step) = size := by omega
      rw [hsum]
      exact List.take_append_drop size t
    · simp [chunkTextFuel, h, reconOv]

theorem chunkText_ne_nil (size step : Nat) (t : List Char) :
    chunkText size step t ≠ [] :=
  chunkTextFuel_ne_nil size step t.length t

/-- C4: for every document text, concatenating the chunks produced by the
chunker with their declared overlaps (200 characters) removed
reconstructs the text exactly, and even for a text shorter than the
maximum chunk size the chunk list is non-empty, so trailing content is
never dropped. -/
theorem chunk_coverage (t : List Char) :
    reconOv 200 (chunkText 1000 800 t) = t ∧ chunkText 1000 800 t ≠ [] := by
  refine ⟨?_, chunkText_ne_nil 1000 800 t⟩
  have h := reconOv_chunkTextFuel 1000 800 (by decide) (by decide) t.length t le_rfl
  simpa [chunkText] using h

/-! ## Query lemmas -/

theorem ragSelected_cons_of_le (r0 : SearchResult) (rs : List SearchResult)
    (h : threshold ≤ r0.score) :
    ragSelected (r0 :: rs) =
      (0, r0) :: (enumResults 1 rs).filter (fun p => decide (threshold ≤ p.2.score)) := by
  simp [ragSelected, enumResults, List.filter_cons, h]

theorem ragSelected_length (results : List SearchResult) :
    (ragSelected results).length =
      (results.filter (fun r => decide (threshold ≤ r.score))).length := by
  suffices h : ∀ (k : Nat) (rs : List SearchResult),
      ((enumResults k rs).filter (fun p => decide (threshold ≤ p.2.score))).length =
        (rs.filter (fun r => decide (threshold ≤ r.score))).length by
    exact h 0 results
  intro k rs
  induction rs generalizing k with
  | nil => rfl
  | cons r rs ih =>
    by_cases hr : threshold ≤ r.score <;>
      simp [enumResults, List.filter_cons, hr, ih]

theorem ragBranch_fields (env : QueryEnv) (question : String)
    (results : List SearchResult) (a : String)
    (hne : ragSelected results ≠ [])
    (ha : env.llm (ragPrompt
        (String.intercalate "\n\n" ((ragSelected results).map (fun p => p.2.payload.text)))
        question) = Except.ok a) :
    ragBranch env question results =
      Except.ok
        { status := "success", answer := a, message := none,
          hit_info := (ragSelected results).map (fun p => mkHit p.1 p.2),
          context_used := some ((ragSelected results).map (fun p => p.2.payload.text)).length,
          mode := some "rag" } := by
  have hE : ((ragSelected results).map (fun p => p.2.payload.text)).isEmpty = false := by
    simp [List.isEmpty_iff, hne]
  simp [ragBranch, hE, ha]

theorem queryBody_ok_cases (env : QueryEnv) (question : String) (top_k : Nat)
    (r : QueryResult) (h : queryBody env question top_k = Except.ok r) :
    (∃ ans, r = generalResult ans) ∨
    (∃ results ans,
      r = { status := "success", answer := ans, message := none,
            hit_info := (ragSelected results).map (fun p => mkHit p.1 p.2),
            context_used := some ((ragSelected results).map (fun p => p.2.payload.text)).length,
            mode := some (if ((ragSelected results).map (fun p => p.2.payload.text)).isEmpty
                          then "general" else "rag") }) := by
  cases hgc : env.get_collection with
  | error eg =>
    cases hl : env.llm question with
    | error e =>
      simp [queryBody, hgc, hl] at h
    | ok ans =>
      simp [queryBody, hgc, hl] at h
      exact Or.inl ⟨ans, h.symm⟩
  | ok n =>
    by_cases hn : n = 0
    · subst hn
      cases hl : env.llm question with
      | error e =>
        simp [queryBody, hgc, hl] at h
      | ok ans =>
        simp [queryBody, hgc, hl] at h
        exact Or.inl ⟨ans, h.symm⟩
    · cases hemb : env.embed question with
      | error e =>
        simp [queryBody, hgc, hn, hemb] at h
      | ok qe =>
        cases hqp : env.query_points qe top_k with
        | error e =>
          simp [queryBody, hgc, hn, hemb, hqp] at h
        | ok results =>
          cases results with
          | nil =>
            cases hl : env.llm question with
            | error e =>
              simp [queryBody, hgc, hn, hemb, hqp, hl] at h
            | ok ans =>
              simp [queryBody, hgc, hn, hemb, hqp, hl] at h
              exact Or.inl ⟨ans, h.symm⟩
          | cons r0 rs =>
            by_cases hscore : r0.score < threshold
            · cases hl : env.llm question with
              | error e =>
                simp [queryBody, hgc, hn, hemb, hqp, hscore, hl] at h
              | ok ans =>
                simp [queryBody, hgc, hn, hemb, hqp, hscore, hl] at h
                exact Or.inl ⟨ans, h.symm⟩
            · simp only [queryBody, hgc, if_neg hn, hemb, hqp, if_neg hscore] at h
              unfold ragBranch at h
              cases hl : env.llm
                  (if ((ragSelected (r0 :: rs)).map (fun p => p.2.payload.text)).isEmpty
                   then question
                   else ragPrompt
                     (String.intercalate "\n\n"
                       ((ragSelected (r0 :: rs)).map (fun p => p.2.payload.text)))
                     question) with
              | error e =>
                simp only [hl] at h
                exact absurd h (by simp)
              | ok ans =>
                simp only [hl] at h
                injection h with h
                exact Or.inr ⟨r0 :: rs, ans, h.symm⟩

/-- C2 (amended): for every query during which an exception escapes the
main pipeline body — embedding failure, search failure or model failure;
a failure of the initial points-count lookup is absorbed instead — the
pipeline makes one fallback call sending the bare question to the
language model and returns status success with mode fallback,
`hit_info = []` and `context_used = 0`; if the fallback call also fails it
returns the error dictionary carrying the original exception message and
a generic apology. -/
theorem query_exception_fallback (env : QueryEnv) (question : String) (top_k : Nat)
    (e : String) (h : queryBody env question top_k = Except.error e) :
    (∀ a, env.llm question = Except.ok a →
      query env question top_k = fallbackResult a) ∧
    (∀ e2, env.llm question = Except.error e2 →
      query env question top_k = errorResult e) := by
  constructor
  · intro a ha
    simp [query, h, ha]
  · intro e2 ha
    simp [query, h, ha]

def samplePayload : Payload :=
  { doc_id := "d", file_name := "f", chunk_index := 0, text := "tx", uploaded_at := "t" }

def sampleResult : SearchResult :=
  { payload := samplePayload, score := 1 }

def envInfoDown : QueryEnv :=
  { get_collection := Except.error ("qdrant down"), embed := fun _ => Except.ok [],
    query_points := fun _ _ => Except.ok [sampleResult],
    llm := fun p => Except.ok ("A:" ++ p) }

/-- C2 counterexample: an index failure is raised during the query (the
points-count lookup fails), yet the pipeline does not fall back: it
absorbs the failure and answers in general mode. -/
theorem query_exception_fallback_cex :
    envInfoDown.get_collection = Except.error ("qdrant down") ∧
    (query envInfoDown ("q") 5).mode = some "general" ∧
    (query envInfoDown ("q") 5).mode ≠ some "fallback" :=
  ⟨rfl, by decide, by decide⟩

def envEmbedDown : QueryEnv :=
  { get_collection := Except.ok 1, embed := fun _ => Except.error ("embed down"),
    query_points := fun _ _ => Except.ok [sampleResult],
    llm := fun p => Except.ok ("A:" ++ p) }

/-- C2 witness: an embedding failure triggers the single fallback call
with the bare question. -/
theorem query_exception_fallback_witness :
    query envEmbedDown ("q") 5 = fallbackResult ("A:" ++ "q") :=
  (query_exception_fallback envEmbedDown ("q") 5 ("embed down") rfl).1 ("A:" ++ "q") rfl

/-- C3 (amended): for every query issued while the collection's
`points_count` is 0 and whose language-model call on the bare question
succeeds, the result is the general-mode dictionary whose answer is the
model's completion of the question sent verbatim, with `hit_info = []`
and `context_used = 0`; the embedder and the index search are never
invoked — the result is unchanged under any replacement of them. -/
theorem query_empty_collection (env : QueryEnv) (question : String) (top_k : Nat)
    (a : String) (hc : env.get_collection = Except.ok 0)
    (ha : env.llm question = Except.ok a) :
    query env question top_k = generalResult a ∧
    (∀ (embed2 : String → Except String (List ℚ))
       (qp2 : List ℚ → Nat → Except String (List SearchResult)),
      query { env with embed := embed2, query_points := qp2 } question top_k =
        generalResult a) := by
  have hmain : ∀ (em : String → Except String (List ℚ))
      (qp : List ℚ → Nat → Except String (List SearchResult)),
      query { env with embed := em, query_points := qp } question top_k =
        generalResult a := by
    intro em qp
    simp [query, queryBody, hc, ha]
  exact ⟨hmain env.embed env.query_points, hmain⟩

def envEmptyDown : QueryEnv :=
  { get_collection := Except.ok 0, embed := fun _ => Except.ok [],
    query_points := fun _ _ => Except.ok [], llm := fun _ => Except.error ("down") }

/-- C3 counterexample: with `points_count = 0` but a failing language
model, the query returns the error dictionary, not a general-mode
success. -/
theorem query_empty_collection_cex :
    envEmptyDown.get_collection = Except.ok 0 ∧
    (query envEmptyDown ("q") 5).status = "error" ∧
    (query envEmptyDown ("q") 5).mode ≠ some "general" :=
  ⟨rfl, by decide, by decide⟩

def envEmptyOk : QueryEnv :=
  { get_collection := Except.ok 0, embed := fun _ => Except.ok [],
    query_points := fun _ _ => Except.ok [], llm := fun p => Except.ok ("A:" ++ p) }

/-- C3 witness: empty collection, successful model call. -/
theorem query_empty_collection_witness :
    query envEmptyOk ("q") 5 = generalResult ("A:" ++ "q") :=
  (query_empty_collection envEmptyOk ("q") 5 ("A:" ++ "q") rfl rfl).1

/-- C1 (amended): for every query on a non-empty collection in which the
nearest-neighbour search succeeds with at least one result and every
language-model call succeeds: if the best result's score is below 0.2 the
mode is general with `hit_info = []` and `context_used = 0`; if the best
score is at least 0.2 the mode is rag, `hit_info` consists exactly of the
results with score at least 0.2 in rank order, and `context_used` counts
exactly those results. -/
theorem query_threshold_modes (env : QueryEnv) (question : String) (top_k n : Nat)
    (qe : List ℚ) (r0 : SearchResult) (rs : List SearchResult)
    (hc : env.get_collection = Except.ok n) (hn : n ≠ 0)
    (he : env.embed question = Except.ok qe)
    (hs : env.query_points qe top_k = Except.ok (r0 :: rs))
    (hllm : ∀ p : String, ∃ a, env.llm p = Except.ok a) :
    (r0.score < threshold →
      (query env question top_k).mode = some "general" ∧
      (query env question top_k).hit_info = [] ∧
      (query env question top_k).context_used = some 0) ∧
    (threshold ≤ r0.score →
      (query env question top_k).mode = some "rag" ∧
      (query env question top_k).hit_info =
        (ragSelected (r0 :: rs)).map (fun p => mkHit p.1 p.2) ∧
      (query env question top_k).context_used =
        some ((r0 :: rs).filter (fun r => decide (threshold ≤ r.score))).length) := by
  constructor
  · intro hlt
    obtain ⟨a, ha⟩ := hllm question
    have hqb : queryBody env question top_k = Except.ok (generalResult a) := by
      simp [queryBody, hc, hn, he, hs, hlt, ha]
    simp [query, hqb, generalResult]
  · intro hge
    have hnlt : ¬ r0.score < threshold := not_lt.mpr hge
    have hne : ragSelected (r0 :: rs) ≠ [] := by
      rw [ragSelected_cons_of_le r0 rs hge]
      simp
    obtain ⟨a, ha⟩ := hllm (ragPrompt
      (String.intercalate "\n\n" ((ragSelected (r0 :: rs)).map (fun p => p.2.payload.text)))
      question)
    have hrb := ragBranch_fields env question (r0 :: rs) a hne ha
    have hqb : queryBody env question top_k = ragBranch env question (r0 :: rs) := by
      simp [queryBody, hc, hn, he, hs, hnlt]
    have hq : query env question top_k =
        { status := "success", answer := a, message := none,
          hit_info := (ragSelected (r0 :: rs)).map (fun p => mkHit p.1 p.2),
          context_used :=
            some ((ragSelected (r0 :: rs)).map (fun p => p.2.payload.text)).length,
          mode := some "rag" } := by
      simp [query, hqb, hrb]
    rw [hq]
    refine ⟨rfl, rfl, ?_⟩
    simp [List.length_map, ragSelected_length]

def envLLMDown : QueryEnv :=
  { get_collection := Except.ok 1, embed := fun _ => Except.ok [],
    query_points := fun _ _ => Except.ok [sampleResult],
    llm := fun _ => Except.error ("down") }

/-- C1 counterexample: the collection is non-empty, the search succeeds
with one result whose score clears the threshold, yet because the model
call fails the returned mode is not rag. -/
theorem query_threshold_modes_cex :
    envLLMDown.get_collection = Except.ok 1 ∧
    envLLMDown.embed ("q") = Except.ok [] ∧
    envLLMDown.query_points [] 5 = Except.ok [sampleResult] ∧
    threshold ≤ sampleResult.score ∧
    (query envLLMDown ("q") 5).mode ≠ some "rag" :=
  ⟨rfl, rfl, rfl, by decide, by decide⟩

def envRagOk : QueryEnv :=
  { get_collection := Except.ok 1, embed := fun _ => Except.ok [],
    query_points := fun _ _ => Except.ok [sampleResult],
    llm := fun p => Except.ok ("A:" ++ p) }

/-- C1 witness: with every call succeeding and the best score 1, the mode
is rag. -/
theorem query_threshold_modes_witness :
    (query envRagOk ("q") 5).mode = some "rag" :=
  ((query_threshold_modes envRagOk ("q") 5 1 [] sampleResult [] rfl (by decide) rfl rfl
      (fun p => ⟨"A:" ++ p, rfl⟩)).2 (by decide)).1

/-- C10: every result returned by `query` with status success satisfies
`context_used = length of hit_info`; mode is rag exactly when at least
one hit was used; and the general and fallback modes always carry an
empty `hit_info`. -/
theorem query_success_invariants (env : QueryEnv) (question : String) (top_k : Nat)
    (h : (query env question top_k).status = "success") :
    (query env question top_k).context_used =
      some (query env question top_k).hit_info.length ∧
    ((query env question top_k).mode = some "rag" ↔
      1 ≤ (query env question top_k).hit_info.length) ∧
    (((query env question top_k).mode = some "general" ∨
      (query env question top_k).mode = some "fallback") →
      (query env question top_k).hit_info = []) := by
  cases hqb : queryBody env question top_k with
  | ok r =>
    have hq : query env question top_k = r := by simp [query, hqb]
    rw [hq]
    rcases queryBody_ok_cases env question top_k r hqb with ⟨ans, rfl⟩ | ⟨results, ans, rfl⟩
    · exact ⟨rfl, by simp [generalResult], by simp [generalResult]⟩
    · by_cases hE : ((ragSelected results).map (fun p => p.2.payload.text)).isEmpty
      · have hsel : ragSelected results = [] := by
          simpa [List.isEmpty_iff] using hE
        simp [hsel, hE]
      · have hsel : ragSelected results ≠ [] := by
          simpa [List.isEmpty_iff] using hE
        have hlen : 1 ≤ (ragSelected results).length :=
          Nat.one_le_iff_ne_zero.mpr (by simpa [List.length_eq_zero] using hsel)
        simp [hE, List.length_map]
        exact hlen
  | error e =>
    cases hl : env.llm question with
    | ok a =>
      have hq : query env question top_k = fallbackResult a := by simp [query, hqb, hl]
      rw [hq]
      exact ⟨rfl, by simp [fallbackResult], by simp [fallbackResult]⟩
    | error e2 =>
      have hq : query env question top_k = errorResult e := by simp [query, hqb, hl]
      rw [hq] at h
      exact absurd h (by simp [errorResult])

/-- C10 witness: a successful general-mode query. -/
theorem query_success_invariants_witness :
    (query envEmptyOk ("q") 5).context_used =
      some (query envEmptyOk ("q") 5).hit_info.length :=
  (query_success_invariants envEmptyOk ("q") 5 (by decide)).1

/-! ## Deletion, listing and ingestion lemmas -/

/-- C6: deleting a `doc_id` carried by no point of the index returns
`{status: success, deleted_points: 0}`, leaves the index unchanged and
issues no delete call. -/
theorem delete_document_missing (store : List Point) (d : String)
    (h : ∀ p ∈ store, p.payload.doc_id ≠ d) :
    delete_document store d =
      ({ status := "success", deleted_points := some 0, message := none },
       store, false) := by
  have hf : store.filter (matchDoc d) = [] := by
    apply List.filter_eq_nil_iff.mpr
    intro p hp
    simp [matchDoc, h p hp]
  simp [delete_document, scroll, hf]

def otherPoint : Point :=
  { id := "p0", vector := [],
    payload := { doc_id := "other", file_name := "f", chunk_index := 0, text := "x",
                 uploaded_at := "t" } }

/-- C6 witness: deleting an absent `doc_id` from a one-point index. -/
theorem delete_document_missing_witness :
    delete_document [otherPoint] ("d") =
      ({ status := "success", deleted_points := some 0, message := none },
       [otherPoint], false) :=
  delete_document_missing [otherPoint] ("d") (by decide)

/-- C7: when the index scan raises, `get_all_documents` returns the empty
list instead of propagating the error. -/
theorem get_all_documents_scan_failure (e : String) :
    get_all_documents (Except.error e) = [] := rfl

theorem buildPoints_error_of_embed_failure (hash : String → String)
    (embed : String → Except String (List ℚ)) (d fn now : String) :
    ∀ (k : Nat) (chunks : List String),
      (∃ c ∈ chunks, ∃ err, embed c = Except.error err) →
      ∃ e, buildPoints hash embed d fn now k chunks = Except.error e := by
  intro k chunks
  induction chunks generalizing k with
  | nil =>
    rintro ⟨c0, hc0, _⟩
    exact absurd hc0 (List.not_mem_nil c0)
  | cons c cs ih =>
    rintro ⟨c0, hc0mem, err, herr⟩
    cases hc : embed c with
    | error e => exact ⟨e, by simp [buildPoints, hc]⟩
    | ok v =>
      have hc0cs : c0 ∈ cs := by
        rcases List.mem_cons.mp hc0mem with rfl | hmem
        · rw [hc] at herr
          exact absurd herr (by simp)
        · exact hmem
      obtain ⟨e, he⟩ := ih (k + 1) ⟨c0, hc0cs, err, herr⟩
      exact ⟨e, by simp [buildPoints, hc, he]⟩

/-- C9: `add_document` is atomic with respect to embedding failures: the
points are accumulated in memory and written in a single upsert after the
loop, so when the embedding of any chunk fails, the returned status is
error with a message and the index state is unchanged. -/
theorem add_document_atomic (hash : String → String)
    (embed : String → Except String (List ℚ)) (now : String) (store : List Point)
    (file_name content : String)
    (h : ∃ c ∈ split_text content, ∃ err, embed c = Except.error err) :
    (add_document hash embed now store file_name content).1.status = "error" ∧
    (add_document hash embed now store file_name content).1.message.isSome = true ∧
    (add_document hash embed now store file_name content).2 = store := by
  obtain ⟨e, he⟩ := buildPoints_error_of_embed_failure hash embed
    (doc_id_of hash file_name) file_name now 0 (split_text content) h
  simp [add_document, he]

def embedFail : String → Except String (List ℚ) :=
  fun _ => Except.error ("embed down")

/-- C9 witness: a failing embedder leaves the index untouched. -/
theorem add_document_atomic_witness :
    (add_document (fun s => s) embedFail ("t") [otherPoint] ("f") ("hello")).2 =
      [otherPoint] :=
  (add_document_atomic (fun s => s) embedFail ("t") [otherPoint] ("f") ("hello")
    ⟨"hello", by decide, "embed down", rfl⟩).2.2

theorem buildPoints_ids (hash : String → String)
    (embed : String → Except String (List ℚ)) (d fn now : String) :
    ∀ (k : Nat) (chunks : List String) (pts : List Point),
      buildPoints hash embed d fn now k chunks = Except.ok pts →
      pts.map Point.id =
        (List.range chunks.length).map (fun i => point_id_of hash d (k + i)) := by
  intro k chunks
  induction chunks generalizing k with
  | nil =>
    intro pts h
    simp [buildPoints] at h
    simp [← h]
  | cons c cs ih =>
    intro pts h
    cases hc : embed c with
    | error e => simp [buildPoints, hc] at h
    | ok v =>
      cases hb : buildPoints hash embed d fn now (k + 1) cs with
      | error e => simp [buildPoints, hc, hb] at h
      | ok rest =>
        have hrest := ih (k + 1) rest hb
        simp [buildPoints, hc, hb] at h
        rw [← h, List.length_cons, List.range_succ_eq_map]
        simp only [List.map_cons, List.map_map, hrest]
        refine congrArg₂ List.cons (by simp) ?_
        apply List.map_congr_left
        intro i _
        have hki : k + 1 + i = k + (i + 1) := by omega
        simp [Function.comp, hki]

theorem add_document_doc_id (hash : String → String)
    (embed : String → Except String (List ℚ)) (now : String) (store : List Point)
    (fn content : String)
    (hs : (add_document hash embed now store fn content).1.status = "success") :
    (add_document hash embed now store fn content).1.doc_id =
      some (doc_id_of hash fn) := by
  cases hb : buildPoints hash embed (doc_id_of hash fn) fn now 0 (split_text content) with
  | error e => simp [add_document, hb] at hs
  | ok pts => simp [add_document, hb]

/-- C8: `point_id` is a pure deterministic function of
`(doc_id, chunk_index)` and `doc_id` a pure deterministic function of
`file_name`: two ingestion loops over the same chunks with different
embedders, timestamps and stores produce identical point-id lists — the
id of the chunk at index `k + i` is always `point_id_of hash doc_id
(k + i)` — and two successful `add_document` calls with the same
`file_name` both report `doc_id_of hash file_name`. -/
theorem point_identity_deterministic (hash : String → String)
    (e1 e2 : String → Except String (List ℚ)) (t1 t2 : String)
    (s1 s2 : List Point) (fn c1 c2 d : String) (k : Nat)
    (chunks : List String) (pts1 pts2 : List Point)
    (hb1 : buildPoints hash e1 d fn t1 k chunks = Except.ok pts1)
    (hb2 : buildPoints hash e2 d fn t2 k chunks = Except.ok pts2)
    (hs1 : (add_document hash e1 t1 s1 fn c1).1.status = "success")
    (hs2 : (add_document hash e2 t2 s2 fn c2).1.status = "success") :
    pts1.map Point.id =
      (List.range chunks.length).map (fun i => point_id_of hash d (k + i)) ∧
    pts1.map Point.id = pts2.map Point.id ∧
    (add_document hash e1 t1 s1 fn c1).1.doc_id = some (doc_id_of hash fn) ∧
    (add_document hash e2 t2 s2 fn c2).1.doc_id = some (doc_id_of hash fn) := by
  have h1 := buildPoints_ids hash e1 d fn t1 k chunks pts1 hb1
  have h2 := buildPoints_ids hash e2 d fn t2 k chunks pts2 hb2
  exact ⟨h1, h1.trans h2.symm,
    add_document_doc_id hash e1 t1 s1 fn c1 hs1,
    add_document_doc_id hash e2 t2 s2 fn c2 hs2⟩

def wPayloadA : Payload :=
  { doc_id := "dd", file_name := "f", chunk_index := 0, text := "a", uploaded_at := "t1" }

def wPayloadB : Payload :=
  { doc_id := "dd", file_name := "f", chunk_index := 0, text := "a", uploaded_at := "t2" }

def wpts1 : List Point := [{ id := "dd_0", vector := [], payload := wPayloadA }]

def wpts2 : List Point := [{ id := "dd_0", vector := [mkRat 1 1], payload := wPayloadB }]

/-- C8 witness: two ingestions of the same chunk list with different
embedders and timestamps yield the same point-id list. -/
theorem point_identity_deterministic_witness :
    wpts1.map Point.id = wpts2.map Point.id :=
  (point_identity_deterministic (fun s => s)
    (fun _ => Except.ok []) (fun _ => Except.ok [mkRat 1 1]) ("t1") ("t2") [] []
    ("f") ("a") ("a") ("dd") 0 ["a"] wpts1 wpts2
    rfl rfl rfl rfl).2.1

/-! ## Deletion completeness (C5) -/

theorem bumpCount_map_doc_id (d : String) (l : List DocSummary) :
    (bumpCount d l).map DocSummary.doc_id = l.map DocSummary.doc_id := by
  induction l with
  | nil => rfl
  | cons s ss ih =>
    by_cases hs : s.doc_id = d <;> simp [bumpCount, hs, ih]

theorem insertPoint_map_doc_id (acc : List DocSummary) (p : Point) :
    (insertPoint acc p).map DocSummary.doc_id = acc.map DocSummary.doc_id ∨
    (insertPoint acc p).map DocSummary.doc_id =
      acc.map DocSummary.doc_id ++ [p.payload.doc_id] := by
  simp only [insertPoint]
  rw [bumpCount_map_doc_id]
  by_cases hany : acc.any (fun s => s.doc_id == p.payload.doc_id) = true
  · rw [if_pos hany]
    exact Or.inl rfl
  · rw [if_neg hany, List.map_append]
    exact Or.inr (by simp)

theorem mem_groupDocs_origin (pts : List Point) (s : DocSummary)
    (hs : s ∈ groupDocs pts) :
    ∃ p ∈ pts, p.payload.doc_id = s.doc_id := by
  suffices h : ∀ (acc : List DocSummary), s ∈ pts.foldl insertPoint acc →
      s.doc_id ∈ acc.map DocSummary.doc_id ∨
        ∃ p ∈ pts, p.payload.doc_id = s.doc_id by
    rcases h [] hs with h0 | h0
    · exact absurd h0 (List.not_mem_nil _)
    · exact h0
  clear hs
  induction pts with
  | nil =>
    intro acc hacc
    exact Or.inl (List.mem_map_of_mem _ hacc)
  | cons p ps ih =>
    intro acc hacc
    simp only [List.foldl_cons] at hacc
    rcases ih (insertPoint acc p) hacc with hmem | ⟨q, hq, hqd⟩
    · rcases insertPoint_map_doc_id acc p with he | he
      · rw [he] at hmem
        exact Or.inl hmem
      · rw [he] at hmem
        rcases List.mem_append.mp hmem with hmm | hmm
        · exact Or.inl hmm
        · simp at hmm
          exact Or.inr ⟨p, List.mem_cons_self p ps, hmm.symm⟩
    · exact Or.inr ⟨q, List.mem_cons_of_mem p hq, hqd⟩

theorem delete_document_status (store : List Point) (d : String) :
    (delete_document store d).1.status = "success" := by
  by_cases hE : ((scroll store (matchDoc d) 10000).map Point.id).isEmpty = true <;>
    simp [delete_document, hE]

theorem delete_document_remaining (store : List Point) (d : String)
    (hle : (store.filter (matchDoc d)).length ≤ 10000) :
    ∀ p ∈ (delete_document store d).2.1, p.payload.doc_id ≠ d := by
  intro p hp hpd
  have hscroll : scroll store (matchDoc d) 10000 = store.filter (matchDoc d) := by
    unfold scroll
    exact List.take_of_length_le hle
  have hpfilter : ∀ q ∈ store, q.payload.doc_id = d → q ∈ store.filter (matchDoc d) :=
    fun q hq hqd => List.mem_filter.mpr ⟨hq, by simp [matchDoc, hqd]⟩
  by_cases hE : ((scroll store (matchDoc d) 10000).map Point.id).isEmpty = true
  · have hnil : store.filter (matchDoc d) = [] := by
      rw [hscroll] at hE
      simpa [List.isEmpty_iff] using hE
    have hp' : p ∈ store := by
      have hst : (delete_document store d).2.1 = store := by
        simp [delete_document, hE]
      rwa [hst] at hp
    have := hpfilter p hp' hpd
    rw [hnil] at this
    exact absurd this (List.not_mem_nil p)
  · have hst : (delete_document store d).2.1 =
        deleteByIds store ((scroll store (matchDoc d) 10000).map Point.id) := by
      simp [delete_document, hE]
    rw [hst] at hp
    unfold deleteByIds at hp
    have hcond := (List.mem_filter.mp hp).2
    have hpmem := (List.mem_filter.mp hp).1
    have hpid : p.id ∈ (scroll store (matchDoc d) 10000).map Point.id := by
      rw [hscroll]
      exact List.mem_map_of_mem Point.id (hpfilter p hpmem hpd)
    have hfalse : ((scroll store (matchDoc d) 10000).map Point.id).contains p.id = false := by
      simpa using hcond
    have htrue : ((scroll store (matchDoc d) 10000).map Point.id).contains p.id = true :=
      List.elem_iff.mpr hpid
    rw [hfalse] at htrue
    exact absurd htrue (by simp)

/-- C5 (amended): for every `doc_id` carried by at most 10000 points of
the index (the scroll limit of the source), `delete_document` succeeds,
afterwards no point of the index carries that `doc_id`,
`get_all_documents` lists no entry with that `doc_id`, and any search
results drawn from the remaining index contain none of that document's
chunks. -/
theorem delete_document_complete (store : List Point) (d : String)
    (hle : (store.filter (matchDoc d)).length ≤ 10000) :
    (delete_document store d).1.status = "success" ∧
    (∀ p ∈ (delete_document store d).2.1, p.payload.doc_id ≠ d) ∧
    (∀ s ∈ get_all_documents
        (Except.ok (scroll (delete_document store d).2.1 (fun _ => true) 10000)),
      s.doc_id ≠ d) ∧
    (∀ results : List SearchResult,
      (∀ r ∈ results, ∃ p ∈ (delete_document store d).2.1, r.payload = p.payload) →
      ∀ r ∈ results, r.payload.doc_id ≠ d) := by
  have hrem := delete_document_remaining store d hle
  refine ⟨delete_document_status store d, hrem, ?_, ?_⟩
  · intro s hs hd
    obtain ⟨p, hp, hpd⟩ := mem_groupDocs_origin _ s hs
    have hpmem : p ∈ (delete_document store d).2.1 :=
      List.mem_of_mem_filter (List.mem_of_mem_take hp)
    exact hrem p hpmem (by rw [hpd, hd])
  · intro results hres r hr hd
    obtain ⟨p, hp, hpp⟩ := hres r hr
    exact hrem p hp (by rw [← hpp, hd])

def w5point : Point :=
  { id := "p1", vector := [],
    payload := { doc_id := "d", file_name := "f", chunk_index := 0, text := "x",
                 uploaded_at := "t" } }

/-- C5 witness: deleting the only document of a one-point index. -/
theorem delete_document_complete_witness :
    (delete_document [w5point] ("d")).1.status = "success" :=
  (delete_document_complete [w5point] ("d") (by decide)).1

/-- The id injection used by the C5 counterexample store. -/
def keyOf (i : Nat) : String := String.mk (List.replicate i 'a')

def cexPt (i : Nat) : Point :=
  { id := keyOf i, vector := [],
    payload := { doc_id := "d", file_name := "f", chunk_index := i, text := "x",
                 uploaded_at := "t" } }

/-- A store holding one document of 10001 chunks — one more than the
scroll limit of `delete_document`. -/
def cexStore : List Point := (List.range 10001).map cexPt

theorem cex_filter : cexStore.filter (matchDoc ("d")) = cexStore := by
  apply List.filter_eq_self.mpr
  intro p hp
  obtain ⟨i, hi, rfl⟩ := List.mem_map.mp hp
  rfl

theorem cex_scroll :
    scroll cexStore (matchDoc ("d")) 10000 = (List.range 10000).map cexPt := by
  unfold scroll
  rw [cex_filter]
  unfold cexStore
  rw [← List.map_take, List.take_range]
  rfl

theorem cex_ids :
    (scroll cexStore (matchDoc ("d")) 10000).map Point.id =
      (List.range 10000).map keyOf := by
  rw [cex_scroll, List.map_map]
  rfl

theorem keyOf_inj (i j : Nat) (h : keyOf i = keyOf j) : i = j := by
  have hdata := congrArg String.data h
  simpa [keyOf] using congrArg List.length hdata

theorem cex_not_mem : keyOf 10000 ∉ (List.range 10000).map keyOf := by
  intro h
  obtain ⟨i, hi, hkey⟩ := List.mem_map.mp h
  have hij := keyOf_inj i 10000 hkey
  rw [hij] at hi
  simp [List.mem_range] at hi

theorem cex_split : cexStore = (List.range 10000).map cexPt ++ [cexPt 10000] := by
  unfold cexStore
  rw [show (10001 : Nat) = 10000 + 1 from rfl, List.range_succ, List.map_append]
  rfl

theorem cex_store2 :
    deleteByIds cexStore ((List.range 10000).map keyOf) = [cexPt 10000] := by
  rw [cex_split]
  unfold deleteByIds
  rw [List.filter_append]
  have hA : ((List.range 10000).map cexPt).filter
      (fun p => !(((List.range 10000).map keyOf).contains p.id)) = [] := by
    apply List.filter_eq_nil_iff.mpr
    intro p hp
    obtain ⟨i, hi, rfl⟩ := List.mem_map.mp hp
    have hmm : (cexPt i).id ∈ (List.range 10000).map keyOf :=
      List.mem_map_of_mem keyOf hi
    simp [List.elem_iff, hmm]
  have hB : ([cexPt 10000] : List Point).filter
      (fun p => !(((List.range 10000).map keyOf).contains p.id)) = [cexPt 10000] := by
    have hnm : (cexPt 10000).id ∉ (List.range 10000).map keyOf := cex_not_mem
    simp [List.filter_cons, List.elem_iff, hnm]
    intro x hx heq
    have hx10 := keyOf_inj x 10000 heq
    omega
  rw [hA, hB]
  rfl

theorem cex_delete : (delete_document cexStore ("d")).2.1 = [cexPt 10000] := by
  have hne : ((List.range 10000).map keyOf).isEmpty = false := by
    simp [List.isEmpty_iff, List.range_eq_nil]
  simp only [delete_document, cex_ids, hne, Bool.false_eq_true, if_false]
  exact cex_store2

/-- C5 counterexample: on a document with 10001 chunks the deletion is
incomplete — `delete_document` reports success, yet `get_all_documents`
still lists an entry with the deleted `doc_id`, because the scroll that
collects the ids to delete is truncated at 10000. -/
theorem delete_document_incomplete_cex :
    (delete_document cexStore ("d")).1.status = "success" ∧
    ∃ s ∈ get_all_documents
        (Except.ok (scroll (delete_document cexStore ("d")).2.1 (fun _ => true) 10000)),
      s.doc_id = "d" := by
  refine ⟨delete_document_status cexStore ("d"), ?_⟩
  rw [cex_delete]
  have hsc : scroll [cexPt 10000] (fun _ => true) 10000 = [cexPt 10000] := by
    simp [scroll]
  rw [hsc]
  exact ⟨{ doc_id := "d", file_name := "f", chunks_count := 1, uploaded_at := "t" },
    by simp [get_all_documents, groupDocs, insertPoint, bumpCount, cexPt], rfl⟩

end RAGEngine
